import Mathlib

/-!
Shallow embedding of the rosgo client library (package `ros` node runtime and
the message-definition toolchain) for checking the natural-language
specification against the source.

Conventions of the embedding:
* Go maps `map[string]T` are modelled as association lists with
  overwrite-on-insert (`mapSet`) and first-match lookup (`mapGet`).
* Go string operations (`strings.Split`, `strings.HasPrefix`, slicing,
  `strings.TrimSpace`, ...) are re-implemented here as structurally
  recursive functions over `String.data`, so that every definition reduces
  inside the kernel; the texts handled by the claims are ASCII, for which
  character-based and byte-based indexing agree (byte counts are used where
  Go's `len` matters).
* Go `(value, error)` returns are modelled as `Except` values; where the Go
  code mutates a context struct in place, the embedding threads the context
  explicitly and returns it alongside the `Except` result (also on the error
  path, matching in-place mutation).
* `crypto/md5` plus `hex.EncodeToString` (Go standard library, external to
  this repository) is abstracted as a function parameter
  `md5hex : String → String` standing for the lowercase hex MD5 digest of
  the UTF-8 bytes of its argument; successive `hash.Write` calls append to
  the hashed stream, so hashing several strings in sequence hashes their
  concatenation.
* Unbounded recursion in the loader (messages referencing messages) is made
  total with a fuel parameter; all claims are stated either conditionally on
  a successful result or at concrete fuel.
-/

namespace Rosgo

/-! ### Association-list model of Go maps -/

/-- Association-list model of a Go `map[string]α`: lookup returns the first
binding for the key. -/
def mapGet (m : List (String × α)) (k : String) : Option α :=
  (m.find? (fun p => p.1 = k)).map (fun p => p.2)

/-- Association-list model of Go map assignment `m[k] = v`: the key is bound
to `v` and any previous binding for it is removed. -/
def mapSet (m : List (String × α)) (k : String) (v : α) : List (String × α) :=
  (k, v) :: m.filter (fun p => p.1 ≠ k)

theorem mapGet_mapSet_self (m : List (String × α)) (k : String) (v : α) :
    mapGet (mapSet m k v) k = some v := by
  simp [mapGet, mapSet, List.find?]

theorem find?_filter_ne (m : List (String × α)) (k t : String) (h : t ≠ k) :
    (m.filter (fun p => p.1 ≠ k)).find? (fun p => p.1 = t) =
      m.find? (fun p => p.1 = t) := by
  induction m with
  | nil => rfl
  | cons hd tl ih =>
    by_cases hk : hd.1 = k
    · have ht : hd.1 ≠ t := fun he => h (he ▸ hk)
      rw [List.filter_cons_of_neg (by simp [hk]), ih,
        List.find?_cons_of_neg _ (by simp [ht])]
    · by_cases ht : hd.1 = t
      · rw [List.filter_cons_of_pos (by simp [hk]),
          List.find?_cons_of_pos _ (by simp [ht]),
          List.find?_cons_of_pos _ (by simp [ht])]
      · rw [List.filter_cons_of_pos (by simp [hk]),
          List.find?_cons_of_neg _ (by simp [ht]),
          List.find?_cons_of_neg _ (by simp [ht]), ih]

theorem mapGet_mapSet_ne (m : List (String × α)) (k t : String) (v : α)
    (h : t ≠ k) : mapGet (mapSet m k v) t = mapGet m t := by
  unfold mapGet mapSet
  rw [List.find?_cons_of_neg _ (by simp [Ne.symm h]), find?_filter_ne m k t h]

/-- Membership in a map after `mapSet` comes from the new binding or from the
old map. -/
theorem mem_mapSet (m : List (String × α)) (k : String) (v : α)
    (p : String × α) (h : p ∈ mapSet m k v) : p = (k, v) ∨ p ∈ m := by
  rcases List.mem_cons.mp h with h1 | h1
  · exact Or.inl h1
  · exact Or.inr (List.mem_of_mem_filter h1)

/-! ### Kernel-reducing models of the Go string operations used by node.go -/

/-- Does the character list `s` begin with the pattern `pat`? -/
def strLeads : List Char → List Char → Bool
  | [], _ => true
  | _ :: _, [] => false
  | p :: ps, c :: cs => p = c && strLeads ps cs

/-- Index of the first occurrence of `sep` in `s`, if any. -/
def findSep (sep : List Char) : List Char → Option Nat
  | [] => if strLeads sep [] then some 0 else none
  | c :: rest =>
    if strLeads sep (c :: rest) then some 0
    else (findSep sep rest).map (· + 1)

/-- Fueled worker for `goSplit`; the fuel bounds the number of pieces. -/
def goSplitAux (sep : List Char) : Nat → List Char → List (List Char)
  | 0, s => [s]
  | n + 1, s =>
    match findSep sep s with
    | none => [s]
    | some i => s.take i :: goSplitAux sep n (s.drop (i + sep.length))

/-- Go `strings.Split(s, sep)` for a non-empty separator: split around every
non-overlapping, leftmost-first occurrence of `sep`. -/
def goSplit (s sep : String) : List String :=
  (goSplitAux sep.data s.data.length s.data).map (fun l => ⟨l⟩)

/-- Go `strings.HasPrefix(s, pat)`. -/
def goStartsWith (s pat : String) : Bool :=
  strLeads pat.data s.data

/-- Go `s[n:]` on an ASCII string (character-based here, byte-based in Go;
the two agree on ASCII). -/
def goDrop (s : String) (n : Nat) : String :=
  ⟨s.data.drop n⟩

/-- Go `strings.Contains(s, c)` for a single-character pattern. -/
def goContainsChar (s : String) (c : Char) : Bool :=
  s.data.contains c

/-- The six whitespace characters recognized by Go `unicode.IsSpace` within
ASCII. -/
def isSpaceChar (c : Char) : Bool :=
  c = ' ' || c = '\t' || c = '\n' || c = '\r' || c = '\x0b' || c = '\x0c'

/-- Go `strings.TrimSpace` (ASCII range). -/
def goTrimSpace (s : String) : String :=
  ⟨((s.data.dropWhile isSpaceChar).reverse.dropWhile isSpaceChar).reverse⟩

/-- Go `strings.Trim(s, "\n")`: strip newlines from both ends. -/
def goTrimNl (s : String) : String :=
  ⟨((s.data.dropWhile (· = '\n')).reverse.dropWhile (· = '\n')).reverse⟩

/-- Go `strings.Fields`-style whitespace split into non-empty words. -/
def goFields (s : String) : List String :=
  ((s.data.splitOnP isSpaceChar).filter (fun w => w ≠ [])).map (fun l => ⟨l⟩)

/-- Go `len(s)` (UTF-8 byte count). -/
def goLen (s : String) : Nat :=
  s.utf8ByteSize

/-- Go `NameMap` (`map[string]string`). -/
abbrev NameMap := List (String × String)

/-!
### Argument processing (`processArguments`, node.go lines 37-59)

Each token is split on `":="`; exactly-two-component tokens are classified by
the shape of the left component (`__` special, `_` parameter, otherwise
remapping); every other token is passed through to the non-ROS rest list.
-/

/-- Tail-recursive transcription of the `for _, arg := range args` loop of
`processArguments`, with the four accumulators of the Go function. -/
def processArgumentsAux :
    List String → NameMap → NameMap → NameMap → List String →
      NameMap × NameMap × NameMap × List String
  | [], mapping, params, specials, rest => (mapping, params, specials, rest)
  | arg :: args, mapping, params, specials, rest =>
    match goSplit arg ":=" with
    | [key, value] =>
      if goStartsWith key "__" then
        processArgumentsAux args mapping params (mapSet specials key value) rest
      else if goStartsWith key "_" then
        processArgumentsAux args mapping (mapSet params (goDrop key 1) value)
          specials rest
      else
        processArgumentsAux args (mapSet mapping key value) params specials rest
    | _ => processArgumentsAux args mapping params specials (rest ++ [arg])

/-- `processArguments` (node.go lines 37-59): classify command-line tokens
into remappings, parameters, specials and non-ROS rest arguments. -/
def processArguments (args : List String) :
    NameMap × NameMap × NameMap × List String :=
  processArgumentsAux args [] [] [] []

/-- The rest list accumulates exactly the tokens whose `":="` split does not
have exactly two components. -/
theorem processArgumentsAux_rest (args : List String)
    (mapping params specials : NameMap) (rest : List String) :
    (processArgumentsAux args mapping params specials rest).2.2.2 =
      rest ++ args.filter (fun a => decide ((goSplit a ":=").length ≠ 2)) := by
  induction args generalizing mapping params specials rest with
  | nil => simp [processArgumentsAux]
  | cons arg args ih =>
    rcases hs : goSplit arg ":=" with _ | ⟨a, _ | ⟨b, _ | ⟨c, t⟩⟩⟩
    · simp only [processArgumentsAux, hs, List.filter_cons]
      rw [ih]
      simp [hs, List.append_assoc]
    · simp only [processArgumentsAux, hs, List.filter_cons]
      rw [ih]
      simp [hs, List.append_assoc]
    · simp only [processArgumentsAux, hs, List.filter_cons]
      have hpred : decide (([a, b] : List String).length ≠ 2) = false := by
        simp
      rw [hpred]
      simp only [Bool.false_eq_true, if_false]
      split
      · exact ih _ _ _ _
      · split
        · exact ih _ _ _ _
        · exact ih _ _ _ _
    · simp only [processArgumentsAux, hs, List.filter_cons]
      rw [ih]
      simp [hs, List.append_assoc]

/-- Every parameter binding produced by `processArgumentsAux` was in the
accumulator or comes from a token splitting into `[k, v]` with `k` starting
with a single underscore; the stored key is `k` minus that underscore. -/
theorem processArgumentsAux_params_mem (args : List String)
    (mapping params specials : NameMap) (rest : List String)
    (q : String × String)
    (hq : q ∈ (processArgumentsAux args mapping params specials rest).2.1) :
    q ∈ params ∨ ∃ a ∈ args, ∃ k v, goSplit a ":=" = [k, v] ∧
      goStartsWith k "_" = true ∧ ¬ goStartsWith k "__" = true ∧
      q = (goDrop k 1, v) := by
  induction args generalizing mapping params specials rest with
  | nil => exact Or.inl hq
  | cons arg args ih =>
    have lift :
        (q ∈ params ∨ ∃ a ∈ args, ∃ k v, goSplit a ":=" = [k, v] ∧
            goStartsWith k "_" = true ∧ ¬ goStartsWith k "__" = true ∧
            q = (goDrop k 1, v)) →
          q ∈ params ∨ ∃ a ∈ arg :: args, ∃ k v, goSplit a ":=" = [k, v] ∧
            goStartsWith k "_" = true ∧ ¬ goStartsWith k "__" = true ∧
            q = (goDrop k 1, v) := by
      rintro (h | ⟨a, ha, k, v, hs, h1, h2, h3⟩)
      · exact Or.inl h
      · exact Or.inr ⟨a, List.mem_cons_of_mem _ ha, k, v, hs, h1, h2, h3⟩
    rcases hs : goSplit arg ":=" with _ | ⟨a, _ | ⟨b, _ | ⟨c, t⟩⟩⟩ <;>
      simp only [processArgumentsAux, hs] at hq
    · exact lift (ih _ _ _ _ hq)
    · exact lift (ih _ _ _ _ hq)
    · by_cases h2 : goStartsWith a "__" = true
      · rw [if_pos h2] at hq
        exact lift (ih _ _ _ _ hq)
      · rw [if_neg h2] at hq
        by_cases h1 : goStartsWith a "_" = true
        · rw [if_pos h1] at hq
          rcases ih _ _ _ _ hq with h | h
          · rcases mem_mapSet _ _ _ _ h with h3 | h3
            · exact Or.inr ⟨arg, List.mem_cons_self arg args, a, b, hs, h1, h2, h3⟩
            · exact Or.inl h3
          · exact lift (Or.inr h)
        · rw [if_neg h1] at hq
          exact lift (ih _ _ _ _ hq)
    · exact lift (ih _ _ _ _ hq)

/-- Every remapping binding produced by `processArgumentsAux` was in the
accumulator or comes verbatim from a token splitting into exactly two
components. -/
theorem processArgumentsAux_mapping_mem (args : List String)
    (mapping params specials : NameMap) (rest : List String)
    (q : String × String)
    (hq : q ∈ (processArgumentsAux args mapping params specials rest).1) :
    q ∈ mapping ∨ ∃ a ∈ args, goSplit a ":=" = [q.1, q.2] := by
  induction args generalizing mapping params specials rest with
  | nil => exact Or.inl hq
  | cons arg args ih =>
    have lift :
        (q ∈ mapping ∨ ∃ a ∈ args, goSplit a ":=" = [q.1, q.2]) →
          q ∈ mapping ∨ ∃ a ∈ arg :: args, goSplit a ":=" = [q.1, q.2] := by
      rintro (h | ⟨a, ha, hs⟩)
      · exact Or.inl h
      · exact Or.inr ⟨a, List.mem_cons_of_mem _ ha, hs⟩
    rcases hs : goSplit arg ":=" with _ | ⟨a, _ | ⟨b, _ | ⟨c, t⟩⟩⟩ <;>
      simp only [processArgumentsAux, hs] at hq
    · exact lift (ih _ _ _ _ hq)
    · exact lift (ih _ _ _ _ hq)
    · by_cases h2 : goStartsWith a "__" = true
      · rw [if_pos h2] at hq
        exact lift (ih _ _ _ _ hq)
      · rw [if_neg h2] at hq
        by_cases h1 : goStartsWith a "_" = true
        · rw [if_pos h1] at hq
          exact lift (ih _ _ _ _ hq)
        · rw [if_neg h1] at hq
          rcases ih _ _ _ _ hq with h | h
          · rcases mem_mapSet _ _ _ _ h with h3 | h3
            · refine Or.inr ⟨arg, List.mem_cons_self arg args, ?_⟩
              rw [h3]
              exact hs
            · exact Or.inl h3
          · exact lift (Or.inr h)
    · exact lift (ih _ _ _ _ hq)

/-- Every special binding produced by `processArgumentsAux` was in the
accumulator or comes verbatim from a token splitting into exactly two
components. -/
theorem processArgumentsAux_specials_mem (args : List String)
    (mapping params specials : NameMap) (rest : List String)
    (q : String × String)
    (hq : q ∈ (processArgumentsAux args mapping params specials rest).2.2.1) :
    q ∈ specials ∨ ∃ a ∈ args, goSplit a ":=" = [q.1, q.2] := by
  induction args generalizing mapping params specials rest with
  | nil => exact Or.inl hq
  | cons arg args ih =>
    have lift :
        (q ∈ specials ∨ ∃ a ∈ args, goSplit a ":=" = [q.1, q.2]) →
          q ∈ specials ∨ ∃ a ∈ arg :: args, goSplit a ":=" = [q.1, q.2] := by
      rintro (h | ⟨a, ha, hs⟩)
      · exact Or.inl h
      · exact Or.inr ⟨a, List.mem_cons_of_mem _ ha, hs⟩
    rcases hs : goSplit arg ":=" with _ | ⟨a, _ | ⟨b, _ | ⟨c, t⟩⟩⟩ <;>
      simp only [processArgumentsAux, hs] at hq
    · exact lift (ih _ _ _ _ hq)
    · exact lift (ih _ _ _ _ hq)
    · by_cases h2 : goStartsWith a "__" = true
      · rw [if_pos h2] at hq
        rcases ih _ _ _ _ hq with h | h
        · rcases mem_mapSet _ _ _ _ h with h3 | h3
          · refine Or.inr ⟨arg, List.mem_cons_self arg args, ?_⟩
            rw [h3]
            exact hs
          · exact Or.inl h3
        · exact lift (Or.inr h)
      · rw [if_neg h2] at hq
        by_cases h1 : goStartsWith a "_" = true
        · rw [if_pos h1] at hq
          exact lift (ih _ _ _ _ hq)
        · rw [if_neg h1] at hq
          exact lift (ih _ _ _ _ hq)
    · exact lift (ih _ _ _ _ hq)

/-!
### Master API calls and node construction details
-/

/-- Calls a node makes against the ROS Master during construction and during
publisher or subscriber creation. -/
inductive MasterCall where
  | setParam (callerID key value : String)
  | registerSubscriber (callerID topic msgType xmlrpcURI : String)
  | registerPublisher (callerID topic msgType xmlrpcURI : String)
  deriving DecidableEq

/-- The parameter-push loop of `newDefaultNode` (node.go lines 177-183):
`callRosAPI(masterURI, "setParam", node.qualifiedName, k, v)` for each
parameter binding. Go map iteration order is unspecified; the binding order
of the association list is used here. -/
def pushParams (qualifiedName : String) (params : NameMap) : List MasterCall :=
  params.map (fun p => MasterCall.setParam qualifiedName p.1 p.2)

/-- The qualified-name computation of `newDefaultNode` (node.go lines
149-152): `namespace + "/" + name`, overridden to `namespace + name` when
`len(namespace) == 1` (Go `len` counts bytes). -/
def mkQualifiedName (ns name : String) : String :=
  if goLen ns = 1 then ns ++ name else ns ++ "/" ++ name

/-!
### Claim C10 — tokens without exactly one `":="` split point pass through
-/

/-- C10: a command-line token is classified (as remapping, parameter or
special) only when splitting on `":="` yields exactly two components; every
other token, including one containing `":="` twice, is passed through
unchanged to the non-ROS rest list. -/
theorem c10_argument_classification (args : List String) :
    (processArguments args).2.2.2 =
        args.filter (fun a => decide ((goSplit a ":=").length ≠ 2)) ∧
      (∀ q ∈ (processArguments args).1,
        ∃ a ∈ args, goSplit a ":=" = [q.1, q.2]) ∧
      (∀ q ∈ (processArguments args).2.1,
        ∃ a ∈ args, ∃ k v, goSplit a ":=" = [k, v] ∧
          goStartsWith k "_" = true ∧ ¬ goStartsWith k "__" = true ∧
          q = (goDrop k 1, v)) ∧
      (∀ q ∈ (processArguments args).2.2.1,
        ∃ a ∈ args, goSplit a ":=" = [q.1, q.2]) := by
  refine ⟨?_, ?_, ?_, ?_⟩
  · exact (processArgumentsAux_rest args [] [] [] []).trans (by simp)
  · intro q hq
    rcases processArgumentsAux_mapping_mem args [] [] [] [] q hq with h | h
    · exact absurd h (List.not_mem_nil q)
    · exact h
  · intro q hq
    rcases processArgumentsAux_params_mem args [] [] [] [] q hq with h | h
    · exact absurd h (List.not_mem_nil q)
    · exact h
  · intro q hq
    rcases processArgumentsAux_specials_mem args [] [] [] [] q hq with h | h
    · exact absurd h (List.not_mem_nil q)
    · exact h

/-- Witness for C10 at a concrete argument list: `a:=b:=c` (two `":="`) is
passed through to the rest list while `x:=y` becomes a remapping. -/
theorem c10_argument_classification_witness :
    (processArguments ["a:=b:=c", "x:=y", "plain"]).2.2.2 =
        ["a:=b:=c", "plain"] ∧
      ∃ a ∈ ["a:=b:=c", "x:=y", "plain"], goSplit a ":=" = ["x", "y"] :=
  ⟨((c10_argument_classification ["a:=b:=c", "x:=y", "plain"]).1).trans
      (by decide),
    (c10_argument_classification ["a:=b:=c", "x:=y", "plain"]).2.1
      ("x", "y") (by decide)⟩

/-!
### Claim C6 — private parameters are pushed without a tilde
-/

/-- C6 counterexample: the token `_rate:=10` results in a `setParam` push
whose parameter name is `rate`, not the tilde-prefixed `~rate` the claim
requires. -/
theorem c6_counterexample :
    pushParams "/talker" (processArguments ["_rate:=10"]).2.1 =
        [MasterCall.setParam "/talker" "rate" "10"] ∧
      MasterCall.setParam "/talker" "~rate" "10" ∉
        pushParams "/talker" (processArguments ["_rate:=10"]).2.1 := by
  decide

/-- C6 as amended: a token `_key:=value` (single leading underscore) is
pushed to the Master as a `setParam` call whose parameter name is `key`
itself — the key with the leading underscore removed and with no tilde
added — and whose value is `value`. -/
theorem c6_setParam_push (q k v : String) (h1 : goStartsWith k "_" = true)
    (h2 : ¬ goStartsWith k "__" = true)
    (h3 : goSplit (k ++ ":=" ++ v) ":=" = [k, v]) :
    pushParams q (processArguments [k ++ ":=" ++ v]).2.1 =
      [MasterCall.setParam q (goDrop k 1) v] := by
  simp only [processArguments, processArgumentsAux, h3]
  rw [if_neg h2, if_pos h1]
  simp [processArgumentsAux, pushParams, mapSet]

/-- Witness for C6 at the concrete token `_rate:=10`. -/
theorem c6_setParam_push_witness :
    pushParams "/n" (processArguments ["_rate" ++ ":=" ++ "10"]).2.1 =
      [MasterCall.setParam "/n" "rate" "10"] :=
  (c6_setParam_push "/n" "_rate" "10" (by decide) (by decide)
      (by decide)).trans (by decide)

/-!
### Claim C5 — qualified-name separator suppression
-/

/-- C5 counterexample: the one-byte namespace `a` (not `/`) also suppresses
the separator: the qualified name of namespace `a` and node `b` is `ab`, not
`a/b`. -/
theorem c5_counterexample :
    mkQualifiedName "a" "b" = "ab" ∧ ("a" : String) ≠ "/" ∧
      mkQualifiedName "a" "b" ≠ "a" ++ "/" ++ "b" := by
  decide

/-- C5 as amended: the separator is suppressed exactly when the namespace is
a single byte (Go `len(namespace) == 1`), whatever that byte is; `/` is one
such namespace, but not the only one. -/
theorem c5_qualified_name (ns n : String) :
    (goLen ns = 1 → mkQualifiedName ns n = ns ++ n) ∧
      (goLen ns ≠ 1 → mkQualifiedName ns n = ns ++ "/" ++ n) := by
  constructor <;> intro h <;> simp [mkQualifiedName, h]

/-- Witness for C5 at the namespaces `/` (one byte: separator suppressed)
and `/wg` (three bytes: separator kept). -/
theorem c5_qualified_name_witness :
    mkQualifiedName "/" "node1" = "/node1" ∧
      mkQualifiedName "/wg" "node1" = "/wg/node1" :=
  ⟨((c5_qualified_name "/" "node1").1 (by decide)).trans (by decide),
    ((c5_qualified_name "/wg" "node1").2 (by decide)).trans (by decide)⟩

/-!
### Node state: publishers, subscribers, and the slave API `requestTopic`

The `defaultNode` fields relevant to the claims. Subscriber callbacks have
an opaque caller-chosen type `α`; a subscriber stores its resolved topic,
message type name and callback list (node.go `defaultSubscriber`). A
publisher is represented by its resolved topic, message type name and the
host/port of its TCP listener (`pub.hostAndPort()`); the optional
connect/disconnect callbacks of `NewPublisherWithCallbacks` are opaque to
the behaviour verified here and are not stored.
-/

/-- Subscriber state visible to `NewSubscriber`. -/
structure SubscriberState (α : Type) where
  topic : String
  msgTypeName : String
  callbacks : List α
  deriving DecidableEq

/-- Publisher state visible to `NewPublisherWithCallbacks` and
`requestTopic`. -/
structure PublisherState where
  topic : String
  msgTypeName : String
  host : String
  portStr : String
  deriving DecidableEq

/-- The `defaultNode` fields used by the claims under check. `resolve` is
`node.resolver.remap` (qualify against the namespace, then apply the
remapping table). -/
structure NodeState (α : Type) where
  qualifiedName : String
  masterURI : String
  xmlrpcURI : String
  resolve : String → String
  subscribers : List (String × SubscriberState α)
  publishers : List (String × PublisherState)

/-- Scalar XML-RPC values appearing in `requestTopic` protocol replies. -/
inductive XScalar where
  | str (v : String)
  | int (n : Int)
  deriving DecidableEq

/-- XML-RPC values appearing as the third element of a slave API result. -/
inductive XVal where
  | int (n : Int)
  | str (v : String)
  | arr (vs : List XScalar)
  deriving DecidableEq

/-- A slave API 3-tuple result. -/
structure ApiResult where
  code : Int
  message : String
  value : XVal
  deriving DecidableEq

/-- Status codes of the ROS slave/master API (node.go lines 20-23). -/
def errorStatus : Int := -1

/-- Failure status code. -/
def failureStatus : Int := 0

/-- Success status code. -/
def successStatus : Int := 1

/-- `buildRosAPIResult`: assemble the `[status, message, value]` 3-tuple. -/
def buildRosAPIResult (code : Int) (message : String) (value : XVal) :
    ApiResult :=
  ⟨code, message, value⟩

/-- Go `strconv.ParseInt(s, 10, 32)` (sign, decimal digits, 32-bit range
check), returning `none` where Go returns an error. -/
def goParseInt32 (s : String) : Option Int :=
  let core : List Char → Int → Option Int := fun ds sign =>
    if ds.isEmpty || !ds.all Char.isDigit then none
    else
      let n : Nat := ds.foldl (fun acc c => acc * 10 + (c.toNat - 48)) 0
      let v : Int := sign * n
      if -(2 ^ 31) ≤ v ∧ v ≤ 2 ^ 31 - 1 then some v else none
  match s.data with
  | '-' :: rest => core rest (-1)
  | '+' :: rest => core rest 1
  | ds => core ds 1

/-- The protocol-selection loop of `requestTopic` (node.go lines 312-329):
scan the offered protocols in order; on the first named `TCPROS`, parse the
publisher listener port and answer `["TCPROS", host, port]`; a port-parse
failure aborts the RPC with an error. Offered protocols are represented by
their names (the Go loop reads only element 0 of each protocol tuple). -/
def selectProtocolLoop (pub : PublisherState) :
    List String → Except String (List XScalar)
  | [] => Except.ok []
  | name :: rest =>
    if name = "TCPROS" then
      match goParseInt32 pub.portStr with
      | none => Except.error "ParseInt"
      | some p =>
        Except.ok [XScalar.str "TCPROS", XScalar.str pub.host, XScalar.int p]
    else selectProtocolLoop pub rest

/-- `requestTopic` (node.go lines 301-331): look the topic up in the
publishers map (failure status when absent), then run the protocol loop and
answer success with the selected protocol list. -/
def requestTopic (node : NodeState α) (topic : String)
    (protocols : List String) : Except String ApiResult :=
  match mapGet node.publishers topic with
  | none => Except.ok (buildRosAPIResult failureStatus "No such topic" (XVal.int 0))
  | some pub =>
    match selectProtocolLoop pub protocols with
    | Except.error e => Except.error e
    | Except.ok sel =>
      Except.ok (buildRosAPIResult successStatus "Success" (XVal.arr sel))

/-- `NewSubscriber` (node.go lines 361-403): look up the resolved topic; on
a miss call the Master (`registerSubscriber`) and store a fresh subscriber
under the resolved name; on a hit append the callback to the existing
subscriber's callback list and make no Master call. -/
def newSubscriber (node : NodeState α) (topic msgTypeName : String)
    (callback : α) : NodeState α × List MasterCall :=
  match mapGet node.subscribers (node.resolve topic) with
  | some sub =>
    ({node with subscribers := (mapSet node.subscribers (node.resolve topic)
        (⟨sub.topic, sub.msgTypeName, sub.callbacks ++ [callback]⟩ :
          SubscriberState α))}, [])
  | none =>
    ({node with subscribers := (mapSet node.subscribers (node.resolve topic)
        (⟨node.resolve topic, msgTypeName, [callback]⟩ :
          SubscriberState α))},
      [MasterCall.registerSubscriber node.qualifiedName (node.resolve topic)
        msgTypeName node.xmlrpcURI])

/-- `NewPublisherWithCallbacks` (node.go lines 338-359): the lookup is keyed
by the **unresolved** `topic` argument, but a created publisher is stored
under the **resolved** name and registered with the Master under the
resolved name. -/
def newPublisherWithCallbacks (node : NodeState α)
    (topic msgTypeName host portStr : String) :
    NodeState α × List MasterCall :=
  match mapGet node.publishers topic with
  | some _ => (node, [])
  | none =>
    ({node with publishers := (mapSet node.publishers (node.resolve topic)
        (⟨node.resolve topic, msgTypeName, host, portStr⟩ : PublisherState))},
      [MasterCall.registerPublisher node.qualifiedName (node.resolve topic)
        msgTypeName node.xmlrpcURI])

/-!
### Claim C7 — the `requestTopic` contract
-/

/-- Helper: the protocol loop answers `["TCPROS", host, port]` whenever some
offered protocol is named TCPROS and the port parses. -/
theorem selectProtocolLoop_mem (pub : PublisherState) (protocols : List String)
    (p : Int) (hm : "TCPROS" ∈ protocols)
    (hp : goParseInt32 pub.portStr = some p) :
    selectProtocolLoop pub protocols =
      Except.ok [XScalar.str "TCPROS", XScalar.str pub.host, XScalar.int p] := by
  induction protocols with
  | nil => exact absurd hm (List.not_mem_nil _)
  | cons a rest ih =>
    by_cases ha : a = "TCPROS"
    · subst ha
      simp [selectProtocolLoop, hp]
    · have hm2 : "TCPROS" ∈ rest := by
        rcases List.mem_cons.mp hm with h | h
        · exact absurd h.symm ha
        · exact h
      simp [selectProtocolLoop, ha, ih hm2]

/-- Helper: the protocol loop answers the empty selection when no offered
protocol is named TCPROS. -/
theorem selectProtocolLoop_not_mem (pub : PublisherState)
    (protocols : List String) (hm : "TCPROS" ∉ protocols) :
    selectProtocolLoop pub protocols = Except.ok [] := by
  induction protocols with
  | nil => rfl
  | cons a rest ih =>
    have ha : a ≠ "TCPROS" := by
      intro h
      exact hm (h ▸ List.mem_cons_self a rest)
    have hm2 : "TCPROS" ∉ rest := fun h => hm (List.mem_cons_of_mem _ h)
    simp [selectProtocolLoop, ha, ih hm2]

/-- C7: `requestTopic` answers a failure-status 3-tuple for a topic with no
local publisher; otherwise the offered protocols are scanned in order and
the first named TCPROS yields a success-status result valued
`["TCPROS", host, port]` of the publisher's TCP listener; with no TCPROS
offered the result is success-status with an empty protocol list. -/
theorem c7_requestTopic (node : NodeState α) (topic : String)
    (protocols : List String) :
    (mapGet node.publishers topic = none →
      requestTopic node topic protocols =
        Except.ok (buildRosAPIResult failureStatus "No such topic" (XVal.int 0))) ∧
    (∀ pub p, mapGet node.publishers topic = some pub →
      "TCPROS" ∈ protocols → goParseInt32 pub.portStr = some p →
      requestTopic node topic protocols =
        Except.ok (buildRosAPIResult successStatus "Success"
          (XVal.arr [XScalar.str "TCPROS", XScalar.str pub.host, XScalar.int p]))) ∧
    (∀ pub, mapGet node.publishers topic = some pub →
      "TCPROS" ∉ protocols →
      requestTopic node topic protocols =
        Except.ok (buildRosAPIResult successStatus "Success" (XVal.arr []))) := by
  refine ⟨?_, ?_, ?_⟩
  · intro h
    simp [requestTopic, h]
  · intro pub p h hm hp
    simp [requestTopic, h, selectProtocolLoop_mem pub protocols p hm hp]
  · intro pub h hm
    simp [requestTopic, h, selectProtocolLoop_not_mem pub protocols hm]

/-- Concrete node used to witness C7: one publisher on topic `chat` with a
TCP listener at `host1:8080`. -/
def nodeC7 : NodeState Unit :=
  { qualifiedName := "/n", masterURI := "http://m", xmlrpcURI := "http://x",
    resolve := fun t => t, subscribers := [],
    publishers := [("chat", ⟨"chat", "std_msgs/String", "host1", "8080"⟩)] }

/-- Witness for C7 at concrete inputs: unknown topic, TCPROS offered second,
and no TCPROS offered. -/
theorem c7_requestTopic_witness :
    requestTopic nodeC7 "other" ["TCPROS"] =
        Except.ok (buildRosAPIResult failureStatus "No such topic" (XVal.int 0)) ∧
      requestTopic nodeC7 "chat" ["UDPROS", "TCPROS"] =
        Except.ok (buildRosAPIResult successStatus "Success"
          (XVal.arr [XScalar.str "TCPROS", XScalar.str "host1", XScalar.int 8080])) ∧
      requestTopic nodeC7 "chat" ["UDPROS"] =
        Except.ok (buildRosAPIResult successStatus "Success" (XVal.arr [])) :=
  ⟨(c7_requestTopic nodeC7 "other" ["TCPROS"]).1 rfl,
    (c7_requestTopic nodeC7 "chat" ["UDPROS", "TCPROS"]).2.1
      ⟨"chat", "std_msgs/String", "host1", "8080"⟩ 8080 rfl (by decide) rfl,
    (c7_requestTopic nodeC7 "chat" ["UDPROS"]).2.2
      ⟨"chat", "std_msgs/String", "host1", "8080"⟩ rfl (by decide)⟩

/-!
### Claim C8 — repeated `NewSubscriber` on a subscribed topic appends
-/

/-- C8: when a subscriber already exists under the resolved topic name, a
further `NewSubscriber` call makes no Master call, creates no new
subscriber, and appends the new callback at the end of the existing
subscriber's callback list; all other topics are untouched. -/
theorem c8_subscriber_append (node : NodeState α) (topic mt : String)
    (cb : α) (sub : SubscriberState α)
    (h : mapGet node.subscribers (node.resolve topic) = some sub) :
    (newSubscriber node topic mt cb).2 = [] ∧
      mapGet (newSubscriber node topic mt cb).1.subscribers
          (node.resolve topic) =
        some ⟨sub.topic, sub.msgTypeName, sub.callbacks ++ [cb]⟩ ∧
      (∀ t, t ≠ node.resolve topic →
        mapGet (newSubscriber node topic mt cb).1.subscribers t =
          mapGet node.subscribers t) ∧
      (newSubscriber node topic mt cb).1.publishers = node.publishers := by
  unfold newSubscriber
  rw [h]
  exact ⟨rfl, mapGet_mapSet_self _ _ _,
    fun t ht => mapGet_mapSet_ne _ _ _ _ ht, rfl⟩

/-- Concrete node used to witness C8: a subscriber on `/chat` with two
callbacks (numbered 0 and 1). -/
def nodeC8 : NodeState Nat :=
  { qualifiedName := "/n", masterURI := "http://m", xmlrpcURI := "http://x",
    resolve := fun t => t, publishers := [],
    subscribers := [("/chat", ⟨"/chat", "std_msgs/String", [0, 1]⟩)] }

/-- Witness for C8: adding callback 2 on `/chat` makes no Master call and
appends it after callbacks 0 and 1. -/
theorem c8_subscriber_append_witness :
    (newSubscriber nodeC8 "/chat" "std_msgs/String" 2).2 = [] ∧
      mapGet (newSubscriber nodeC8 "/chat" "std_msgs/String" 2).1.subscribers
          "/chat" =
        some ⟨"/chat", "std_msgs/String", [0, 1, 2]⟩ :=
  ⟨(c8_subscriber_append nodeC8 "/chat" "std_msgs/String" 2
      ⟨"/chat", "std_msgs/String", [0, 1]⟩ rfl).1,
    (c8_subscriber_append nodeC8 "/chat" "std_msgs/String" 2
      ⟨"/chat", "std_msgs/String", [0, 1]⟩ rfl).2.1⟩

/-!
### Claim C9 — publisher lookup under the unresolved name
-/

/-- Node used for the C9 counterexample: the remapping resolves `a` to `b`
and `b` to `c`. -/
def nodeC9 : NodeState Unit :=
  { qualifiedName := "/n", masterURI := "http://m", xmlrpcURI := "http://x",
    resolve := fun t => if t = "a" then "b" else if t = "b" then "c" else t,
    subscribers := [], publishers := [] }

/-- C9 counterexample: after `NewPublisherWithCallbacks` on topic `a`
(stored under its resolved name `b`), a call on topic `b` — whose resolved
name `c` differs from `b`, so the claim demands a fresh Master registration
— finds the stored publisher under the unresolved key `b` and performs no
registration at all. -/
theorem c9_counterexample :
    nodeC9.resolve "b" ≠ "b" ∧
      (newPublisherWithCallbacks nodeC9 "a" "T" "h" "1").2 ≠ [] ∧
      (newPublisherWithCallbacks
          (newPublisherWithCallbacks nodeC9 "a" "T" "h" "1").1
          "b" "T" "h" "1").2 = [] := by
  refine ⟨by decide, by decide, rfl⟩

/-- Helper: the miss branch of `NewPublisherWithCallbacks` as an equation. -/
theorem newPublisherWithCallbacks_absent (node : NodeState α)
    (topic mt host port : String)
    (h : mapGet node.publishers topic = none) :
    newPublisherWithCallbacks node topic mt host port =
      ({node with publishers := (mapSet node.publishers (node.resolve topic)
          (⟨node.resolve topic, mt, host, port⟩ : PublisherState))},
        [MasterCall.registerPublisher node.qualifiedName (node.resolve topic)
          mt node.xmlrpcURI]) := by
  unfold newPublisherWithCallbacks
  rw [h]

/-- Helper: the hit branch of `NewPublisherWithCallbacks` as an equation. -/
theorem newPublisherWithCallbacks_present (node : NodeState α)
    (topic mt host port : String) (pub : PublisherState)
    (h : mapGet node.publishers topic = some pub) :
    newPublisherWithCallbacks node topic mt host port = (node, []) := by
  unfold newPublisherWithCallbacks
  rw [h]

/-- C9 as amended: `NewPublisherWithCallbacks` decides by looking up the
**unresolved** topic string but stores under the **resolved** name. When the
unresolved key is present the call returns the stored publisher with no
Master call. When it is absent the call registers under the resolved name
and stores there; if additionally the resolved name differs from the topic
string, the unresolved key is still absent afterwards, so a repeated call
registers with the Master again (and overwrites the stored publisher). -/
theorem c9_publisher_registration (node : NodeState α)
    (topic mt host port : String) :
    (∀ pub, mapGet node.publishers topic = some pub →
      newPublisherWithCallbacks node topic mt host port = (node, [])) ∧
    (mapGet node.publishers topic = none →
      (newPublisherWithCallbacks node topic mt host port).2 =
          [MasterCall.registerPublisher node.qualifiedName
            (node.resolve topic) mt node.xmlrpcURI] ∧
        mapGet (newPublisherWithCallbacks node topic mt host port).1.publishers
            (node.resolve topic) =
          some ⟨node.resolve topic, mt, host, port⟩ ∧
        (node.resolve topic ≠ topic →
          mapGet (newPublisherWithCallbacks node topic mt host
              port).1.publishers topic = none ∧
          (newPublisherWithCallbacks
              (newPublisherWithCallbacks node topic mt host port).1
              topic mt host port).2 =
            [MasterCall.registerPublisher node.qualifiedName
              (node.resolve topic) mt node.xmlrpcURI])) := by
  constructor
  · intro pub h
    exact newPublisherWithCallbacks_present node topic mt host port pub h
  · intro h
    rw [newPublisherWithCallbacks_absent node topic mt host port h]
    refine ⟨rfl, mapGet_mapSet_self _ _ _, ?_⟩
    intro hne
    have habsent : mapGet (mapSet node.publishers (node.resolve topic)
        (⟨node.resolve topic, mt, host, port⟩ : PublisherState)) topic =
          none :=
      (mapGet_mapSet_ne _ _ _ _ (Ne.symm hne)).trans h
    exact ⟨habsent,
      congrArg Prod.snd
        (newPublisherWithCallbacks_absent _ topic mt host port habsent)⟩

/-- Node used for the C9 witness: the remapping resolves `a` to `b` only. -/
def nodeC9w : NodeState Unit :=
  { qualifiedName := "/n", masterURI := "http://m", xmlrpcURI := "http://x",
    resolve := fun t => if t = "a" then "b" else t,
    subscribers := [], publishers := [] }

/-- Witness for C9 at topic `a` (resolved name `b`): the first call
registers and stores under `b`; the repeated call registers again. -/
theorem c9_publisher_registration_witness :
    (newPublisherWithCallbacks nodeC9w "a" "T" "h" "1").2 =
        [MasterCall.registerPublisher "/n" "b" "T" "http://x"] ∧
      mapGet (newPublisherWithCallbacks nodeC9w "a" "T" "h"
          "1").1.publishers "b" =
        some ⟨"b", "T", "h", "1"⟩ ∧
      (newPublisherWithCallbacks
          (newPublisherWithCallbacks nodeC9w "a" "T" "h" "1").1
          "a" "T" "h" "1").2 =
        [MasterCall.registerPublisher "/n" "b" "T" "http://x"] :=
  ⟨((c9_publisher_registration nodeC9w "a" "T" "h" "1").2 rfl).1,
    ((c9_publisher_registration nodeC9w "a" "T" "h" "1").2 rfl).2.1,
    (((c9_publisher_registration nodeC9w "a" "T" "h" "1").2 rfl).2.2
      (by decide)).2⟩

/-!
### The message-definition toolchain (`MsgContext`, loaders, MD5 computer)

The second Go file in node.go: `LoadMsgFromString`, `LoadMsg`,
`LoadSrvFromString`, `LoadActionFromString`, `ComputeMD5Text`,
`ComputeMsgMD5`, `ComputeSrvMD5`, `ComputeActionMD5`. The per-line parsing
helpers (`stripComment`, `loadConstantLine`, `loadFieldLine`,
`packageResourceName`, `Field.String`, the constant `ConstChar`) belong to
this repository but are not under src/; they are modelled from the spec
below, each marked as such.

The loader recursion (a message MD5 loads referenced messages, which
compute their MD5s, ...) is unbounded in Go; here a fuel-indexed family of
function records is built by structural recursion on the fuel, with every
inter-function call using the record one fuel level down.
-/

/-- Array kind of a message field. -/
inductive ArrayKind where
  | scalar
  | unbounded
  | fixed (n : Nat)
  deriving DecidableEq

/-- A message field: optional package, type, name, and array kind. -/
structure Field where
  package : String
  type : String
  name : String
  arrayKind : ArrayKind
  deriving DecidableEq

/-- A message constant: type, name, and the verbatim value text. -/
structure Constant where
  type : String
  name : String
  valueText : String
  deriving DecidableEq

/-- `MsgSpec`: a parsed message definition. -/
structure MsgSpec where
  package : String
  shortName : String
  fullName : String
  text : String
  fields : List Field
  constants : List Constant
  md5 : String
  deriving DecidableEq

/-- `SrvSpec`: a parsed service definition. -/
structure SrvSpec where
  package : String
  shortName : String
  fullName : String
  text : String
  md5 : String
  request : MsgSpec
  response : MsgSpec
  deriving DecidableEq

/-- `ActionSpec`: a parsed action definition with the three loaded sections
and the three synthesized top-level messages. -/
structure ActionSpec where
  package : String
  shortName : String
  fullName : String
  text : String
  md5 : String
  goal : MsgSpec
  feedback : MsgSpec
  result : MsgSpec
  actionGoal : MsgSpec
  actionFeedback : MsgSpec
  actionResult : MsgSpec
  deriving DecidableEq

/-- Loader errors. `syntaxErr` models `NewSyntaxError`; `notFound` and
`missingSeparator` model the corresponding `fmt.Errorf` messages of
`LoadMsg` and the service/action splitters; `readErr` models an
`ioutil.ReadFile` failure; `fuelOut` is the artifact of the fuel bound and
corresponds to no Go behaviour (Go would recurse without bound). -/
inductive LoadErr where
  | syntaxErr (fullname : String) (line : Nat) (msg : String)
  | notFound (fullname : String)
  | invalidName (name : String)
  | readErr (path : String)
  | missingSeparator
  | fuelOut
  deriving DecidableEq

/-- `MsgContext` (the fields the claims exercise): the message path map from
package discovery, the registry cache, and the file system seen by
`ioutil.ReadFile` (a pure map from paths to contents; the srv/action path
maps, used only by the file-loading entry points `LoadSrv`/`LoadAction`,
are omitted). -/
structure MsgContext where
  msgPathMap : List (String × String)
  msgRegistry : List (String × MsgSpec)
  fs : String → Option String

/-- Modelled from the spec: `stripComment` (not under src/) — comments begin
at `#`; the remainder is whitespace-trimmed so that blank and comment-only
lines become empty. -/
def stripComment (line : String) : String :=
  goTrimSpace ⟨line.data.takeWhile (fun c => c ≠ '#')⟩

/-- Modelled from the spec: the primitive field types (`§4.3`). -/
def builtinTypes : List String :=
  ["bool", "byte", "char", "int8", "int16", "int32", "int64",
    "uint8", "uint16", "uint32", "uint64", "float32", "float64",
    "string", "time", "duration"]

/-- Decimal value of a digit list. -/
def digitsVal (ds : List Char) : Nat :=
  ds.foldl (fun acc c => acc * 10 + (c.toNat - 48)) 0

/-- Modelled from the spec: split an optional `[]` / `[N]` array suffix off
a field type. -/
def parseArrayKind (t : String) : Option (String × ArrayKind) :=
  match goSplit t "[" with
  | [base] => some (base, ArrayKind.scalar)
  | [base, inner] =>
    match inner.data.reverse with
    | ']' :: revds =>
      if revds = [] then some (base, ArrayKind.unbounded)
      else if revds.reverse.all Char.isDigit then
        some (base, ArrayKind.fixed (digitsVal revds.reverse))
      else none
    | _ => none
  | _ => none

/-- Modelled from the spec: `loadFieldLine` (not under src/) — a field line
is `TYPE NAME` where `TYPE` may carry an array suffix; `Header` expands to
`std_msgs/Header`; a primitive gets an empty package; an unqualified
non-primitive type gets the package being loaded. -/
def loadFieldLine (origLine packageName : String) : Except String Field :=
  match goFields (stripComment origLine) with
  | [t, name] =>
    match parseArrayKind t with
    | none => Except.error "unparsable field type"
    | some (base, ak) =>
      match goSplit base "/" with
      | [single] =>
        if single = "Header" then
          Except.ok ⟨"std_msgs", "Header", name, ak⟩
        else if builtinTypes.contains single then
          Except.ok ⟨"", single, name, ak⟩
        else Except.ok ⟨packageName, single, name, ak⟩
      | [pkg, ty] => Except.ok ⟨pkg, ty, name, ak⟩
      | _ => Except.error "unparsable field type"
  | _ => Except.error "field line is not TYPE NAME"

/-- Modelled from the spec: `loadConstantLine` (not under src/) — a constant
line is `TYPE NAME = VALUE`, split at the first `=`; the value text keeps
the right-hand side with surrounding whitespace trimmed, verbatim (with any
trailing `#...`) for string constants. -/
def loadConstantLine (origLine : String) : Except String Constant :=
  match findSep ['='] origLine.data with
  | none => Except.error "constant line without equal sign"
  | some i =>
    match goFields (goTrimSpace ⟨origLine.data.take i⟩) with
    | [t, name] =>
      if t = "string" then
        Except.ok ⟨t, name, goTrimSpace ⟨origLine.data.drop (i + 1)⟩⟩
      else
        Except.ok ⟨t, name, stripComment ⟨origLine.data.drop (i + 1)⟩⟩
    | _ => Except.error "constant line is not TYPE NAME = VALUE"

/-- Modelled from the spec: `packageResourceName` (not under src/) — a full
name is `package/shortname`. -/
def packageResourceName (fullname : String) :
    Except LoadErr (String × String) :=
  match goSplit fullname "/" with
  | [pkg, short] => Except.ok (pkg, short)
  | _ => Except.error (LoadErr.invalidName fullname)

/-- Modelled from the spec: `Field.String` (not under src/) — the canonical
string form `TYPE NAME` with the array suffix on the type. -/
def fieldString (f : Field) : String :=
  f.type ++
    (match f.arrayKind with
      | ArrayKind.scalar => ""
      | ArrayKind.unbounded => "[]"
      | ArrayKind.fixed n => "[" ++ Nat.repr n ++ "]") ++
    " " ++ f.name

/-- One constant line of the canonical MD5 text
(`fmt.Sprintf("%s %s=%s\n", ...)`, node.go line 892). -/
def constantLineText (c : Constant) : String :=
  c.type ++ " " ++ c.name ++ "=" ++ c.valueText ++ "\n"

/-- The parse loop of `LoadMsgFromString` (node.go lines 670-690): iterate
the `"\n"`-split lines with their indices; skip lines whose comment-stripped
form is empty; a line whose comment-stripped form contains `=` (`ConstChar`,
modelled from the spec as `=`) parses as a constant, otherwise as a field;
parse failures become `SyntaxError`s carrying the line number. -/
def parseMsgLines (packageName fullname : String) :
    Nat → List String → List Field → List Constant →
      Except LoadErr (List Field × List Constant)
  | _, [], fields, constants => Except.ok (fields, constants)
  | lineno, origLine :: rest, fields, constants =>
    if (stripComment origLine).data.length = 0 then
      parseMsgLines packageName fullname (lineno + 1) rest fields constants
    else if goContainsChar (stripComment origLine) '=' then
      match loadConstantLine origLine with
      | Except.error e => Except.error (LoadErr.syntaxErr fullname lineno e)
      | Except.ok c =>
        parseMsgLines packageName fullname (lineno + 1) rest fields
          (constants ++ [c])
    else
      match loadFieldLine origLine packageName with
      | Except.error e => Except.error (LoadErr.syntaxErr fullname lineno e)
      | Except.ok f =>
        parseMsgLines packageName fullname (lineno + 1) rest
          (fields ++ [f]) constants

/-- The mutually recursive loader/MD5 operations, at one fuel level:
`LoadMsgFromString`, `ComputeMsgMD5`, `ComputeMD5Text`, `LoadMsg`. Each
returns its `Except` result together with the (in Go, mutated in place)
context. -/
structure EngineFns where
  loadString :
    MsgContext → String → String → (Except LoadErr MsgSpec) × MsgContext
  msgMD5 : MsgContext → MsgSpec → (Except LoadErr String) × MsgContext
  md5Text : MsgContext → MsgSpec → (Except LoadErr String) × MsgContext
  load : MsgContext → String → (Except LoadErr MsgSpec) × MsgContext

/-- The field loop of `ComputeMD5Text` (node.go lines 894-908): a primitive
field (empty package) contributes its canonical line; otherwise the
referenced message is loaded and its MD5 contributes `<md5sum> NAME`. A
failed load or a failed sub-MD5 makes the source take its `return "", nil`
branch: the whole text computed so far is discarded and the empty string is
returned **without an error**; this is signalled by `none`. -/
def md5FieldLoop
    (load : MsgContext → String → (Except LoadErr MsgSpec) × MsgContext)
    (msgMD5 : MsgContext → MsgSpec → (Except LoadErr String) × MsgContext) :
    MsgContext → List Field → (Except LoadErr (Option String)) × MsgContext
  | ctx, [] => (Except.ok (some ""), ctx)
  | ctx, f :: rest =>
    if f.package = "" then
      match md5FieldLoop load msgMD5 ctx rest with
      | (Except.ok (some s), ctx2) =>
        (Except.ok (some (fieldString f ++ "\n" ++ s)), ctx2)
      | other => other
    else
      match load ctx (f.package ++ "/" ++ f.type) with
      | (Except.error LoadErr.fuelOut, ctx2) =>
        (Except.error LoadErr.fuelOut, ctx2)
      | (Except.error _, ctx2) => (Except.ok none, ctx2)
      | (Except.ok subspec, ctx2) =>
        match msgMD5 ctx2 subspec with
        | (Except.error LoadErr.fuelOut, ctx3) =>
          (Except.error LoadErr.fuelOut, ctx3)
        | (Except.error _, ctx3) => (Except.ok none, ctx3)
        | (Except.ok submd5, ctx3) =>
          match md5FieldLoop load msgMD5 ctx3 rest with
          | (Except.ok (some s), ctx4) =>
            (Except.ok (some (submd5 ++ " " ++ f.name ++ "\n" ++ s)), ctx4)
          | other => other

/-- `LoadMsgFromString` (node.go lines 664-700) at one fuel level: split the
full name, parse the lines, compute the MD5 of the new spec (with MD5 still
empty), store the sum in the spec and register it. -/
def engineLoadString (prev : EngineFns) (ctx : MsgContext)
    (text fullname : String) : (Except LoadErr MsgSpec) × MsgContext :=
  match packageResourceName fullname with
  | Except.error e => (Except.error e, ctx)
  | Except.ok (pkg, short) =>
    match parseMsgLines pkg fullname 0 (goSplit text "\n") [] [] with
    | Except.error e => (Except.error e, ctx)
    | Except.ok (fields, constants) =>
      match prev.msgMD5 ctx ⟨pkg, short, fullname, text, fields, constants, ""⟩ with
      | (Except.error e, ctx2) => (Except.error e, ctx2)
      | (Except.ok md5sum, ctx2) =>
        (Except.ok ⟨pkg, short, fullname, text, fields, constants, md5sum⟩,
          {ctx2 with msgRegistry := (mapSet ctx2.msgRegistry fullname
            ⟨pkg, short, fullname, text, fields, constants, md5sum⟩)})

/-- `ComputeMsgMD5` (node.go lines 912-923) at one fuel level: the MD5 text
hashed (`md5hex` abstracts `crypto/md5` + `hex.EncodeToString`). -/
def engineMsgMD5 (md5hex : String → String) (prev : EngineFns)
    (ctx : MsgContext) (spec : MsgSpec) :
    (Except LoadErr String) × MsgContext :=
  match prev.md5Text ctx spec with
  | (Except.error e, ctx2) => (Except.error e, ctx2)
  | (Except.ok txt, ctx2) => (Except.ok (md5hex txt), ctx2)

/-- `ComputeMD5Text` (node.go lines 888-910) at one fuel level: constant
lines, then the field loop, joined and trimmed of newlines at both ends
(`strings.Trim(buf.String(), "\n")`); a `none` from the field loop is the
source's swallowed-error `return "", nil`. -/
def engineMD5Text (prev : EngineFns) (ctx : MsgContext) (spec : MsgSpec) :
    (Except LoadErr String) × MsgContext :=
  match md5FieldLoop prev.load prev.msgMD5 ctx spec.fields with
  | (Except.error e, ctx2) => (Except.error e, ctx2)
  | (Except.ok none, ctx2) => (Except.ok "", ctx2)
  | (Except.ok (some fieldsText), ctx2) =>
    (Except.ok (goTrimNl
      (String.join (spec.constants.map constantLineText) ++ fieldsText)), ctx2)

/-- `LoadMsg` (node.go lines 716-732) at one fuel level: registry cache,
then the path map plus the file system, registering a loaded spec (again,
after `LoadMsgFromString` already did). -/
def engineLoad (prev : EngineFns) (ctx : MsgContext) (fullname : String) :
    (Except LoadErr MsgSpec) × MsgContext :=
  match mapGet ctx.msgRegistry fullname with
  | some spec => (Except.ok spec, ctx)
  | none =>
    match mapGet ctx.msgPathMap fullname with
    | none => (Except.error (LoadErr.notFound fullname), ctx)
    | some path =>
      match ctx.fs path with
      | none => (Except.error (LoadErr.readErr path), ctx)
      | some text =>
        match prev.loadString ctx text fullname with
        | (Except.error e, ctx2) => (Except.error e, ctx2)
        | (Except.ok spec, ctx2) =>
          (Except.ok spec, {ctx2 with msgRegistry := (mapSet ctx2.msgRegistry
            fullname spec)})

/-- The engine at fuel 0: every operation reports fuel exhaustion. -/
def engineZero : EngineFns :=
  ⟨fun ctx _ _ => (Except.error LoadErr.fuelOut, ctx),
    fun ctx _ => (Except.error LoadErr.fuelOut, ctx),
    fun ctx _ => (Except.error LoadErr.fuelOut, ctx),
    fun ctx _ => (Except.error LoadErr.fuelOut, ctx)⟩

/-- The fuel-indexed loader/MD5 engine; every inter-function call steps one
fuel level down. -/
def engine (md5hex : String → String) : Nat → EngineFns
  | 0 => engineZero
  | n + 1 =>
    ⟨engineLoadString (engine md5hex n),
      engineMsgMD5 md5hex (engine md5hex n),
      engineMD5Text (engine md5hex n),
      engineLoad (engine md5hex n)⟩

/-- `LoadMsgFromString` at a given fuel. -/
def loadMsgFromString (fuel : Nat) (md5hex : String → String)
    (ctx : MsgContext) (text fullname : String) :
    (Except LoadErr MsgSpec) × MsgContext :=
  (engine md5hex fuel).loadString ctx text fullname

/-- `ComputeMsgMD5` at a given fuel. -/
def computeMsgMD5 (fuel : Nat) (md5hex : String → String)
    (ctx : MsgContext) (spec : MsgSpec) :
    (Except LoadErr String) × MsgContext :=
  (engine md5hex fuel).msgMD5 ctx spec

/-- `ComputeMD5Text` at a given fuel. -/
def computeMD5Text (fuel : Nat) (md5hex : String → String)
    (ctx : MsgContext) (spec : MsgSpec) :
    (Except LoadErr String) × MsgContext :=
  (engine md5hex fuel).md5Text ctx spec

/-- `LoadMsg` at a given fuel. -/
def loadMsg (fuel : Nat) (md5hex : String → String) (ctx : MsgContext)
    (fullname : String) : (Except LoadErr MsgSpec) × MsgContext :=
  (engine md5hex fuel).load ctx fullname

/-- `ComputeSrvMD5` (node.go lines 948-963): hash the concatenation of the
request and response MD5 **texts**. -/
def computeSrvMD5 (fuel : Nat) (md5hex : String → String)
    (ctx : MsgContext) (spec : SrvSpec) :
    (Except LoadErr String) × MsgContext :=
  match computeMD5Text fuel md5hex ctx spec.request with
  | (Except.error e, ctx1) => (Except.error e, ctx1)
  | (Except.ok reqText, ctx1) =>
    match computeMD5Text fuel md5hex ctx1 spec.response with
    | (Except.error e, ctx2) => (Except.error e, ctx2)
    | (Except.ok resText, ctx2) => (Except.ok (md5hex (reqText ++ resText)), ctx2)

/-- `ComputeActionMD5` (node.go lines 925-946): hash the concatenation of
the MD5 texts of ActionGoal, ActionFeedback and ActionResult, in that
order. -/
def computeActionMD5 (fuel : Nat) (md5hex : String → String)
    (ctx : MsgContext) (spec : ActionSpec) :
    (Except LoadErr String) × MsgContext :=
  match computeMD5Text fuel md5hex ctx spec.actionGoal with
  | (Except.error e, ctx1) => (Except.error e, ctx1)
  | (Except.ok goalText, ctx1) =>
    match computeMD5Text fuel md5hex ctx1 spec.actionFeedback with
    | (Except.error e, ctx2) => (Except.error e, ctx2)
    | (Except.ok feedbackText, ctx2) =>
      match computeMD5Text fuel md5hex ctx2 spec.actionResult with
      | (Except.error e, ctx3) => (Except.error e, ctx3)
      | (Except.ok resultText, ctx3) =>
        (Except.ok (md5hex (goalText ++ feedbackText ++ resultText)), ctx3)

/-- `LoadSrvFromString` (node.go lines 737-770): split the text on the
substring `---`; exactly two components load as request and response, any
other count is the `missing '---'` error. -/
def loadSrvFromString (fuel : Nat) (md5hex : String → String)
    (ctx : MsgContext) (text fullname : String) :
    (Except LoadErr SrvSpec) × MsgContext :=
  match packageResourceName fullname with
  | Except.error e => (Except.error e, ctx)
  | Except.ok (pkg, short) =>
    match goSplit text "---" with
    | [reqText, resText] =>
      match loadMsgFromString fuel md5hex ctx reqText (fullname ++ "Request") with
      | (Except.error e, c) => (Except.error e, c)
      | (Except.ok reqSpec, ctx1) =>
        match loadMsgFromString fuel md5hex ctx1 resText (fullname ++ "Response") with
        | (Except.error e, c) => (Except.error e, c)
        | (Except.ok resSpec, ctx2) =>
          match computeSrvMD5 fuel md5hex ctx2
              ⟨pkg, short, fullname, text, "", reqSpec, resSpec⟩ with
          | (Except.error e, c) => (Except.error e, c)
          | (Except.ok md5sum, ctx3) =>
            (Except.ok ⟨pkg, short, fullname, text, md5sum, reqSpec, resSpec⟩,
              ctx3)
    | _ => (Except.error LoadErr.missingSeparator, ctx)

/-- `LoadActionFromString` (node.go lines 800-861): split the text on the
substring `---` into exactly three components (goal, result, feedback);
load them and the three synthesized top-level action messages, then compute
the action MD5. -/
def loadActionFromString (fuel : Nat) (md5hex : String → String)
    (ctx : MsgContext) (text fullname : String) :
    (Except LoadErr ActionSpec) × MsgContext :=
  match packageResourceName fullname with
  | Except.error e => (Except.error e, ctx)
  | Except.ok (pkg, short) =>
    match goSplit text "---" with
    | [goalText, resultText, feedbackText] =>
      match loadMsgFromString fuel md5hex ctx goalText (fullname ++ "Goal") with
      | (Except.error e, c) => (Except.error e, c)
      | (Except.ok goalSpec, ctx1) =>
        match loadMsgFromString fuel md5hex ctx1
            ("Header header\nactionlib_msgs/GoalID goal_id\n" ++ fullname ++
              "Goal goal\n")
            (fullname ++ "ActionGoal") with
        | (Except.error e, c) => (Except.error e, c)
        | (Except.ok actionGoalSpec, ctx2) =>
          match loadMsgFromString fuel md5hex ctx2 feedbackText
              (fullname ++ "Feedback") with
          | (Except.error e, c) => (Except.error e, c)
          | (Except.ok feedbackSpec, ctx3) =>
            match loadMsgFromString fuel md5hex ctx3
                ("Header header\nactionlib_msgs/GoalStatus status\n" ++
                  fullname ++ "Feedback feedback")
                (fullname ++ "ActionFeedback") with
            | (Except.error e, c) => (Except.error e, c)
            | (Except.ok actionFeedbackSpec, ctx4) =>
              match loadMsgFromString fuel md5hex ctx4 resultText
                  (fullname ++ "Result") with
              | (Except.error e, c) => (Except.error e, c)
              | (Except.ok resultSpec, ctx5) =>
                match loadMsgFromString fuel md5hex ctx5
                    ("Header header\nactionlib_msgs/GoalStatus status\n" ++
                      fullname ++ "Result result")
                    (fullname ++ "ActionResult") with
                | (Except.error e, c) => (Except.error e, c)
                | (Except.ok actionResultSpec, ctx6) =>
                  match computeActionMD5 fuel md5hex ctx6
                      ⟨pkg, short, fullname, text, "", goalSpec, feedbackSpec,
                        resultSpec, actionGoalSpec, actionFeedbackSpec,
                        actionResultSpec⟩ with
                  | (Except.error e, c) => (Except.error e, c)
                  | (Except.ok md5sum, ctx7) =>
                    (Except.ok ⟨pkg, short, fullname, text, md5sum, goalSpec,
                      feedbackSpec, resultSpec, actionGoalSpec,
                      actionFeedbackSpec, actionResultSpec⟩, ctx7)
    | _ => (Except.error LoadErr.missingSeparator, ctx)

/-!
### Support lemmas for the loader claims
-/

/-- The success value of an `Except`, if any. -/
def okValue : Except ε α → Option α
  | Except.ok a => some a
  | Except.error _ => none

/-- The parse loop without line numbers: its success value coincides with
`parseMsgLines` (line numbers only enter error payloads). -/
def parseMsgLinesNoPos (packageName fullname : String) :
    List String → List Field → List Constant →
      Option (List Field × List Constant)
  | [], fields, constants => some (fields, constants)
  | origLine :: rest, fields, constants =>
    if (stripComment origLine).data.length = 0 then
      parseMsgLinesNoPos packageName fullname rest fields constants
    else if goContainsChar (stripComment origLine) '=' then
      match loadConstantLine origLine with
      | Except.error _ => none
      | Except.ok c =>
        parseMsgLinesNoPos packageName fullname rest fields (constants ++ [c])
    else
      match loadFieldLine origLine packageName with
      | Except.error _ => none
      | Except.ok f =>
        parseMsgLinesNoPos packageName fullname rest (fields ++ [f]) constants

theorem parseMsgLines_okValue (pkg fn : String) (lines : List String) :
    ∀ (n : Nat) (fs : List Field) (cs : List Constant),
      okValue (parseMsgLines pkg fn n lines fs cs) =
        parseMsgLinesNoPos pkg fn lines fs cs := by
  induction lines with
  | nil => intro n fs cs; rfl
  | cons l rest ih =>
    intro n fs cs
    unfold parseMsgLines parseMsgLinesNoPos
    by_cases h0 : (stripComment l).data.length = 0
    · rw [if_pos h0, if_pos h0]
      exact ih _ _ _
    · rw [if_neg h0, if_neg h0]
      by_cases h1 : goContainsChar (stripComment l) '=' = true
      · rw [if_pos h1, if_pos h1]
        rcases loadConstantLine l with e | cv
        · rfl
        · exact ih _ _ _
      · rw [if_neg h1, if_neg h1]
        rcases loadFieldLine l pkg with e | fv
        · rfl
        · exact ih _ _ _

theorem parseMsgLinesNoPos_filter (pkg fn : String) (lines : List String) :
    ∀ (fs : List Field) (cs : List Constant),
      parseMsgLinesNoPos pkg fn lines fs cs =
        parseMsgLinesNoPos pkg fn
          (lines.filter (fun l => decide ((stripComment l).data.length ≠ 0)))
          fs cs := by
  induction lines with
  | nil => intro fs cs; rfl
  | cons l rest ih =>
    intro fs cs
    by_cases h0 : (stripComment l).data.length = 0
    · rw [List.filter_cons_of_neg (by simp [h0])]
      conv =>
        lhs
        unfold parseMsgLinesNoPos
      rw [if_pos h0]
      exact ih _ _
    · rw [List.filter_cons_of_pos (by simpa using h0)]
      conv =>
        lhs
        unfold parseMsgLinesNoPos
      conv =>
        rhs
        unfold parseMsgLinesNoPos
      rw [if_neg h0, if_neg h0]
      by_cases h1 : goContainsChar (stripComment l) '=' = true
      · rw [if_pos h1, if_pos h1]
        rcases loadConstantLine l with e | cv
        · rfl
        · exact ih _ _
      · rw [if_neg h1, if_neg h1]
        rcases loadFieldLine l pkg with e | fv
        · rfl
        · exact ih _ _

/-- A line that is blank or a whole-line comment: its content before `#` is
the empty string. -/
def blankOrComment (l : String) : Bool :=
  (l.data.takeWhile (fun c => c ≠ '#')).isEmpty

theorem blankOrComment_skipped (l : String) (h : blankOrComment l = true) :
    (stripComment l).data.length = 0 := by
  have h2 : l.data.takeWhile (fun c => c ≠ '#') = [] := by
    cases he : l.data.takeWhile (fun c => c ≠ '#') with
    | nil => rfl
    | cons a t =>
      unfold blankOrComment at h
      rw [he] at h
      simp [List.isEmpty] at h
  dsimp only [stripComment, goTrimSpace]
  rw [h2]
  rfl

/-- Texts whose non-blank non-comment lines coincide also have coinciding
non-skipped lines (every blank-or-comment line is skipped by the parse
loop). -/
theorem filter_skip_of_filter_bc (ls1 ls2 : List String)
    (h : ls1.filter (fun l => !(blankOrComment l)) =
      ls2.filter (fun l => !(blankOrComment l))) :
    ls1.filter (fun l => decide ((stripComment l).data.length ≠ 0)) =
      ls2.filter (fun l => decide ((stripComment l).data.length ≠ 0)) := by
  have key : ∀ ls : List String,
      ls.filter (fun l => decide ((stripComment l).data.length ≠ 0)) =
        (ls.filter (fun l => !(blankOrComment l))).filter
          (fun l => decide ((stripComment l).data.length ≠ 0)) := by
    intro ls
    induction ls with
    | nil => rfl
    | cons l rest ih =>
      by_cases hbc : blankOrComment l = true
      · have hskip : (stripComment l).data.length = 0 :=
          blankOrComment_skipped l hbc
        rw [List.filter_cons_of_neg (by simp [hskip]),
          List.filter_cons_of_neg (by simp [hbc]), ih]
      · by_cases hs : (stripComment l).data.length = 0
        · rw [List.filter_cons_of_neg (by simp [hs]),
            List.filter_cons_of_pos (by simp [hbc]),
            List.filter_cons_of_neg (by simp [hs]), ih]
        · rw [List.filter_cons_of_pos (by simpa using hs),
            List.filter_cons_of_pos (by simp [hbc]),
            List.filter_cons_of_pos (by simpa using hs), ih]
  rw [key ls1, key ls2, h]

/-- The MD5 text and the message MD5 depend on a spec only through its
field and constant lists (at every fuel level). -/
theorem engine_md5_congr (md5hex : String → String) :
    ∀ (n : Nat) (ctx : MsgContext) (s1 s2 : MsgSpec),
      s1.fields = s2.fields → s1.constants = s2.constants →
      (engine md5hex n).md5Text ctx s1 = (engine md5hex n).md5Text ctx s2 ∧
      (engine md5hex n).msgMD5 ctx s1 = (engine md5hex n).msgMD5 ctx s2 := by
  intro n
  induction n with
  | zero => exact fun ctx s1 s2 hf hc => ⟨rfl, rfl⟩
  | succ n ih =>
    intro ctx s1 s2 hf hc
    have hmt : (engine md5hex (n + 1)).md5Text ctx s1 =
        (engine md5hex (n + 1)).md5Text ctx s2 := by
      simp only [engine, engineMD5Text]
      rw [hf, hc]
    refine ⟨hmt, ?_⟩
    simp only [engine, engineMsgMD5]
    rw [(ih ctx s1 s2 hf hc).1]

/-- Helper: a successful `LoadMsgFromString` stores the input text and full
name verbatim in the returned spec. -/
theorem loadMsgFromString_text (fuel : Nat) (md5hex : String → String)
    (ctx c : MsgContext) (text fullname : String) (s : MsgSpec)
    (h : loadMsgFromString fuel md5hex ctx text fullname = (Except.ok s, c)) :
    s.text = text ∧ s.fullName = fullname := by
  cases fuel with
  | zero =>
    exact absurd h (by simp [loadMsgFromString, engine, engineZero])
  | succ n =>
    simp only [loadMsgFromString, engine] at h
    unfold engineLoadString at h
    rcases hp : packageResourceName fullname with e | ⟨pkg, short⟩ <;>
      rw [hp] at h <;> dsimp only at h
    · exact absurd h (by simp)
    rcases hq : parseMsgLines pkg fullname 0 (goSplit text "\n") [] [] with
        e | ⟨fields, constants⟩ <;> rw [hq] at h <;> dsimp only at h
    · exact absurd h (by simp)
    rcases hm : (engine md5hex n).msgMD5 ctx
        ⟨pkg, short, fullname, text, fields, constants, ""⟩ with
        ⟨(e | md5sum), ctx2⟩ <;> rw [hm] at h <;> dsimp only at h
    · exact absurd h (by simp)
    injection h with h1 h2
    injection h1 with h1
    subst h1
    exact ⟨rfl, rfl⟩

/-- Helper: decomposition of a successful `ComputeActionMD5` into the three
MD5-text computations and the final digest of their concatenation. -/
theorem computeActionMD5_ok (fuel : Nat) (md5hex : String → String)
    (ctx c : MsgContext) (spec : ActionSpec) (sum : String)
    (h : computeActionMD5 fuel md5hex ctx spec = (Except.ok sum, c)) :
    ∃ gt ft rt c1 c2,
      computeMD5Text fuel md5hex ctx spec.actionGoal = (Except.ok gt, c1) ∧
      computeMD5Text fuel md5hex c1 spec.actionFeedback = (Except.ok ft, c2) ∧
      computeMD5Text fuel md5hex c2 spec.actionResult = (Except.ok rt, c) ∧
      sum = md5hex (gt ++ ft ++ rt) := by
  unfold computeActionMD5 at h
  rcases h1 : computeMD5Text fuel md5hex ctx spec.actionGoal with
      ⟨(e | gt), c1⟩ <;> rw [h1] at h <;> dsimp only at h
  · exact absurd h (by simp)
  rcases h2 : computeMD5Text fuel md5hex c1 spec.actionFeedback with
      ⟨(e | ft), c2⟩ <;> rw [h2] at h <;> dsimp only at h
  · exact absurd h (by simp)
  rcases h3 : computeMD5Text fuel md5hex c2 spec.actionResult with
      ⟨(e | rt), c3⟩ <;> rw [h3] at h <;> dsimp only at h
  · exact absurd h (by simp)
  injection h with ha hb
  injection ha with ha
  refine ⟨gt, ft, rt, c1, c2, rfl, h2, ?_, ha.symm⟩
  rw [← hb]
  exact h3

/-!
### Claim C2 — a missing referenced message is swallowed, not reported
-/

/-- Context with empty path map, empty registry and empty file system. -/
def ctxC2 : MsgContext := ⟨[], [], fun _ => none⟩

/-- A spec whose single field references `foo/Missing`, which cannot be
loaded. -/
def specC2 : MsgSpec :=
  ⟨"p", "M", "p/M", "foo/Missing x",
    [⟨"foo", "Missing", "x", ArrayKind.scalar⟩], [], ""⟩

/-- C2 (code bug): loading the referenced message fails with the not-found
error, yet `ComputeMD5Text` on the referencing spec succeeds with the empty
string and `ComputeMsgMD5` succeeds with the digest of the empty text: the
source's `return "", nil` (node.go lines 900 and 904) discards the error the
line above just tested for, so the not-found condition never reaches the
caller. -/
theorem c2_notfound_swallowed (md5hex : String → String) :
    (loadMsg 5 md5hex ctxC2 "foo/Missing").1 =
        Except.error (LoadErr.notFound "foo/Missing") ∧
      (computeMD5Text 5 md5hex ctxC2 specC2).1 = Except.ok "" ∧
      (computeMsgMD5 5 md5hex ctxC2 specC2).1 = Except.ok (md5hex "") :=
  ⟨rfl, rfl, rfl⟩

/-!
### Claim C3 — the service/action splitter is a substring split
-/

/-- Context used for the C3 theorems. -/
def ctxC3 : MsgContext := ⟨[], [], fun _ => none⟩

/-- C3 counterexample: `int8 a---int8 b` has no line equal to `---` (it has
no newline at all), yet it loads successfully as a service: `---` inside an
ordinary line does act as a section separator, because the splitter is Go
`strings.Split` on the substring `---`. -/
theorem c3_counterexample :
    (∃ s c, loadSrvFromString 5 (fun s => s) ctxC3 "int8 a---int8 b" "p/S" =
        (Except.ok s, c)) ∧
      (goSplit "int8 a---int8 b" "\n").all (fun l => l ≠ "---") = true :=
  ⟨⟨_, _, rfl⟩, by decide⟩

/-- C3 as amended: loading a service succeeds only when splitting the text
on every (non-overlapping, leftmost-first) occurrence of the substring `---`
yields exactly two components, and an action only with exactly three;
occurrences inside an ordinary line count. Any other count fails with the
`missing '---'` error. -/
theorem c3_separator_split (fuel : Nat) (md5hex : String → String) :
    (∀ ctx text fullname s c,
      loadSrvFromString fuel md5hex ctx text fullname = (Except.ok s, c) →
        (goSplit text "---").length = 2) ∧
    (∀ ctx text fullname s c,
      loadActionFromString fuel md5hex ctx text fullname = (Except.ok s, c) →
        (goSplit text "---").length = 3) := by
  constructor
  · intro ctx text fullname s c h
    unfold loadSrvFromString at h
    rcases hp : packageResourceName fullname with e | ⟨pkg, short⟩ <;>
      rw [hp] at h <;> dsimp only at h
    · exact absurd h (by simp)
    rcases hsp : goSplit text "---" with _ | ⟨a, _ | ⟨b, _ | ⟨d, t⟩⟩⟩ <;>
      rw [hsp] at h <;> dsimp only at h
    · exact absurd h (by simp)
    · exact absurd h (by simp)
    · rfl
    · exact absurd h (by simp)
  · intro ctx text fullname s c h
    unfold loadActionFromString at h
    rcases hp : packageResourceName fullname with e | ⟨pkg, short⟩ <;>
      rw [hp] at h <;> dsimp only at h
    · exact absurd h (by simp)
    rcases hsp : goSplit text "---" with
        _ | ⟨a, _ | ⟨b, _ | ⟨d, _ | ⟨x, t⟩⟩⟩⟩ <;>
      rw [hsp] at h <;> dsimp only at h
    · exact absurd h (by simp)
    · exact absurd h (by simp)
    · exact absurd h (by simp)
    · rfl
    · exact absurd h (by simp)

/-- Witness for the amended C3: the successful load above indeed has a
two-component substring split. -/
theorem c3_separator_split_witness :
    (goSplit "int8 a---int8 b" "---").length = 2 :=
  (c3_separator_split 5 (fun s => s)).1 ctxC3 "int8 a---int8 b" "p/S" _ _ rfl

/-!
### Claim C1 — synthesized action texts and the action MD5
-/

/-- C1: a successfully loaded action with full name `F` has ActionGoal text
`Header header\nactionlib_msgs/GoalID goal_id\nFGoal goal\n` (trailing
newline), ActionFeedback text
`Header header\nactionlib_msgs/GoalStatus status\nFFeedback feedback` and
ActionResult text
`Header header\nactionlib_msgs/GoalStatus status\nFResult result` (no
trailing newline), and its MD5 is the digest (`md5hex`, abstracting
lowercase-hex MD5 of the UTF-8 bytes) of the concatenation of the MD5 texts
of ActionGoal, ActionFeedback and ActionResult, in that order. -/
theorem c1_action_synthesis (fuel : Nat) (md5hex : String → String)
    (ctx c : MsgContext) (text fullname : String) (spec : ActionSpec)
    (h : loadActionFromString fuel md5hex ctx text fullname =
      (Except.ok spec, c)) :
    spec.actionGoal.text =
        "Header header\nactionlib_msgs/GoalID goal_id\n" ++ fullname ++
          "Goal goal\n" ∧
      spec.actionFeedback.text =
        "Header header\nactionlib_msgs/GoalStatus status\n" ++ fullname ++
          "Feedback feedback" ∧
      spec.actionResult.text =
        "Header header\nactionlib_msgs/GoalStatus status\n" ++ fullname ++
          "Result result" ∧
      ∃ gt ft rt ca cb,
        computeMD5Text fuel md5hex ca spec.actionGoal = (Except.ok gt, cb) ∧
        (∃ cc, computeMD5Text fuel md5hex cb spec.actionFeedback =
            (Except.ok ft, cc) ∧
          computeMD5Text fuel md5hex cc spec.actionResult =
            (Except.ok rt, c)) ∧
        spec.md5 = md5hex (gt ++ ft ++ rt) := by
  unfold loadActionFromString at h
  rcases hp : packageResourceName fullname with e | ⟨pkg, short⟩ <;>
    rw [hp] at h <;> dsimp only at h
  · exact absurd h (by simp)
  rcases hsp : goSplit text "---" with
      _ | ⟨goalText, _ | ⟨resultText, _ | ⟨feedbackText, _ | ⟨x, t⟩⟩⟩⟩ <;>
    rw [hsp] at h <;> dsimp only at h
  · exact absurd h (by simp)
  · exact absurd h (by simp)
  · exact absurd h (by simp)
  · rcases hg : loadMsgFromString fuel md5hex ctx goalText
        (fullname ++ "Goal") with ⟨(e | goalSpec), ctx1⟩ <;>
      rw [hg] at h <;> dsimp only at h
    · exact absurd h (by simp)
    rcases hag : loadMsgFromString fuel md5hex ctx1
        ("Header header\nactionlib_msgs/GoalID goal_id\n" ++ fullname ++
          "Goal goal\n") (fullname ++ "ActionGoal") with
        ⟨(e | actionGoalSpec), ctx2⟩ <;> rw [hag] at h <;> dsimp only at h
    · exact absurd h (by simp)
    rcases hf : loadMsgFromString fuel md5hex ctx2 feedbackText
        (fullname ++ "Feedback") with ⟨(e | feedbackSpec), ctx3⟩ <;>
      rw [hf] at h <;> dsimp only at h
    · exact absurd h (by simp)
    rcases haf : loadMsgFromString fuel md5hex ctx3
        ("Header header\nactionlib_msgs/GoalStatus status\n" ++ fullname ++
          "Feedback feedback") (fullname ++ "ActionFeedback") with
        ⟨(e | actionFeedbackSpec), ctx4⟩ <;> rw [haf] at h <;> dsimp only at h
    · exact absurd h (by simp)
    rcases hr : loadMsgFromString fuel md5hex ctx4 resultText
        (fullname ++ "Result") with ⟨(e | resultSpec), ctx5⟩ <;>
      rw [hr] at h <;> dsimp only at h
    · exact absurd h (by simp)
    rcases har : loadMsgFromString fuel md5hex ctx5
        ("Header header\nactionlib_msgs/GoalStatus status\n" ++ fullname ++
          "Result result") (fullname ++ "ActionResult") with
        ⟨(e | actionResultSpec), ctx6⟩ <;> rw [har] at h <;> dsimp only at h
    · exact absurd h (by simp)
    rcases hmd : computeActionMD5 fuel md5hex ctx6
        ⟨pkg, short, fullname, text, "", goalSpec, feedbackSpec, resultSpec,
          actionGoalSpec, actionFeedbackSpec, actionResultSpec⟩ with
        ⟨(e | md5sum), ctx7⟩ <;> rw [hmd] at h <;> dsimp only at h
    · exact absurd h (by simp)
    injection h with h1 h2
    injection h1 with h1
    subst h1
    rw [h2] at hmd
    obtain ⟨gt, ft, rt, ca1, cb1, e1, e2, e3, esum⟩ :=
      computeActionMD5_ok fuel md5hex ctx6 c _ md5sum hmd
    exact ⟨(loadMsgFromString_text fuel md5hex ctx1 ctx2 _ _ _ hag).1,
      (loadMsgFromString_text fuel md5hex ctx3 ctx4 _ _ _ haf).1,
      (loadMsgFromString_text fuel md5hex ctx5 ctx6 _ _ _ har).1,
      gt, ft, rt, ctx6, ca1, e1, ⟨cb1, e2, e3⟩, esum⟩
  · exact absurd h (by simp)

/-- Context used to witness C1: the three actionlib/std_msgs dependencies
of the synthesized action messages are pre-registered (their md5 caches are
irrelevant; the computation re-derives them from the fields). -/
def ctxC1 : MsgContext :=
  ⟨[],
    [("std_msgs/Header",
        ⟨"std_msgs", "Header", "std_msgs/Header",
          "uint32 seq\ntime stamp\nstring frame_id",
          [⟨"", "uint32", "seq", ArrayKind.scalar⟩,
            ⟨"", "time", "stamp", ArrayKind.scalar⟩,
            ⟨"", "string", "frame_id", ArrayKind.scalar⟩], [], ""⟩),
      ("actionlib_msgs/GoalID",
        ⟨"actionlib_msgs", "GoalID", "actionlib_msgs/GoalID",
          "time stamp\nstring id",
          [⟨"", "time", "stamp", ArrayKind.scalar⟩,
            ⟨"", "string", "id", ArrayKind.scalar⟩], [], ""⟩),
      ("actionlib_msgs/GoalStatus",
        ⟨"actionlib_msgs", "GoalStatus", "actionlib_msgs/GoalStatus",
          "uint8 status\nstring text",
          [⟨"", "uint8", "status", ArrayKind.scalar⟩,
            ⟨"", "string", "text", ArrayKind.scalar⟩], [], ""⟩)],
    fun _ => none⟩

/-- Witness for C1: the action `pkg/Fib` with body
`int32 order---int32 seq---int32 prog` loads, its synthesized texts are
exactly as claimed, and its MD5 is the digest of the three concatenated
MD5 texts. -/
theorem c1_action_synthesis_witness :
    ∃ spec c, loadActionFromString 10 (fun s => s) ctxC1
        "int32 order---int32 seq---int32 prog" "pkg/Fib" =
          (Except.ok spec, c) ∧
      (spec.actionGoal.text =
          "Header header\nactionlib_msgs/GoalID goal_id\n" ++ "pkg/Fib" ++
            "Goal goal\n" ∧
        spec.actionFeedback.text =
          "Header header\nactionlib_msgs/GoalStatus status\n" ++ "pkg/Fib" ++
            "Feedback feedback" ∧
        spec.actionResult.text =
          "Header header\nactionlib_msgs/GoalStatus status\n" ++ "pkg/Fib" ++
            "Result result" ∧
        ∃ gt ft rt ca cb,
          computeMD5Text 10 (fun s => s) ca spec.actionGoal =
              (Except.ok gt, cb) ∧
            (∃ cc, computeMD5Text 10 (fun s => s) cb spec.actionFeedback =
                (Except.ok ft, cc) ∧
              computeMD5Text 10 (fun s => s) cc spec.actionResult =
                (Except.ok rt, c)) ∧
            spec.md5 = (fun s => s) (gt ++ ft ++ rt)) := by
  obtain ⟨spec, c, h⟩ : ∃ spec c, loadActionFromString 10 (fun s => s) ctxC1
      "int32 order---int32 seq---int32 prog" "pkg/Fib" =
        (Except.ok spec, c) := ⟨_, _, rfl⟩
  exact ⟨spec, c, h, c1_action_synthesis 10 (fun s => s) ctxC1 c
    "int32 order---int32 seq---int32 prog" "pkg/Fib" spec h⟩

/-!
### Claim C4 — MD5 invariance under blank lines and whole-line comments
-/

/-- C4: two message texts whose lines differ only by blank lines and
whole-line comments (lines whose content before `#` is empty) load to specs
with the same field list, the same constant list, and bit-identical MD5
sums. -/
theorem c4_md5_comment_invariant (fuel : Nat) (md5hex : String → String)
    (ctx ca cb : MsgContext) (t1 t2 fullname : String) (s1 s2 : MsgSpec)
    (hlines : (goSplit t1 "\n").filter (fun l => !(blankOrComment l)) =
      (goSplit t2 "\n").filter (fun l => !(blankOrComment l)))
    (h1 : loadMsgFromString fuel md5hex ctx t1 fullname = (Except.ok s1, ca))
    (h2 : loadMsgFromString fuel md5hex ctx t2 fullname = (Except.ok s2, cb)) :
    s1.md5 = s2.md5 ∧ s1.fields = s2.fields ∧ s1.constants = s2.constants := by
  cases fuel with
  | zero =>
    exact absurd h1 (by simp [loadMsgFromString, engine, engineZero])
  | succ n =>
    simp only [loadMsgFromString, engine] at h1 h2
    unfold engineLoadString at h1 h2
    rcases hp : packageResourceName fullname with e | ⟨pkg, short⟩ <;>
      rw [hp] at h1 h2 <;> dsimp only at h1 h2
    · exact absurd h1 (by simp)
    rcases hq1 : parseMsgLines pkg fullname 0 (goSplit t1 "\n") [] [] with
        e | ⟨fields1, constants1⟩ <;> rw [hq1] at h1 <;> dsimp only at h1
    · exact absurd h1 (by simp)
    rcases hq2 : parseMsgLines pkg fullname 0 (goSplit t2 "\n") [] [] with
        e | ⟨fields2, constants2⟩ <;> rw [hq2] at h2 <;> dsimp only at h2
    · exact absurd h2 (by simp)
    have hpar : (fields1, constants1) = (fields2, constants2) := by
      have e1 : okValue (parseMsgLines pkg fullname 0 (goSplit t1 "\n") [] []) =
          some (fields1, constants1) := by rw [hq1]; rfl
      have e2 : okValue (parseMsgLines pkg fullname 0 (goSplit t2 "\n") [] []) =
          some (fields2, constants2) := by rw [hq2]; rfl
      rw [parseMsgLines_okValue, parseMsgLinesNoPos_filter] at e1 e2
      rw [filter_skip_of_filter_bc _ _ hlines] at e1
      exact Option.some.inj (e1.symm.trans e2)
    injection hpar with hfe hce
    rcases hm1 : (engine md5hex n).msgMD5 ctx
        ⟨pkg, short, fullname, t1, fields1, constants1, ""⟩ with
        ⟨(e | sum1), cm1⟩ <;> rw [hm1] at h1 <;> dsimp only at h1
    · exact absurd h1 (by simp)
    rcases hm2 : (engine md5hex n).msgMD5 ctx
        ⟨pkg, short, fullname, t2, fields2, constants2, ""⟩ with
        ⟨(e | sum2), cm2⟩ <;> rw [hm2] at h2 <;> dsimp only at h2
    · exact absurd h2 (by simp)
    have hsum : sum1 = sum2 := by
      have hcongr := (engine_md5_congr md5hex n ctx
        ⟨pkg, short, fullname, t1, fields1, constants1, ""⟩
        ⟨pkg, short, fullname, t2, fields2, constants2, ""⟩ hfe hce).2
      rw [hm1, hm2] at hcongr
      injection hcongr with hx hy
      exact Except.ok.inj hx
    injection h1 with h1a h1b
    injection h1a with h1a
    injection h2 with h2a h2b
    injection h2a with h2a
    subst h1a
    subst h2a
    exact ⟨hsum, hfe, hce⟩

/-- Context used to witness C4. -/
def ctxC4 : MsgContext := ⟨[], [], fun _ => none⟩

/-- Witness for C4: `int32 x` and the same text wrapped in a whole-line
comment and blank lines load to the same MD5. -/
theorem c4_md5_comment_invariant_witness :
    ∃ s1 c1 s2 c2,
      loadMsgFromString 4 (fun s => s) ctxC4 "int32 x" "p/M" =
          (Except.ok s1, c1) ∧
        loadMsgFromString 4 (fun s => s) ctxC4 "# c\nint32 x\n\n" "p/M" =
          (Except.ok s2, c2) ∧
        s1.md5 = s2.md5 := by
  obtain ⟨s1, c1, e1⟩ : ∃ s c, loadMsgFromString 4 (fun s => s) ctxC4
      "int32 x" "p/M" = (Except.ok s, c) := ⟨_, _, rfl⟩
  obtain ⟨s2, c2, e2⟩ : ∃ s c, loadMsgFromString 4 (fun s => s) ctxC4
      "# c\nint32 x\n\n" "p/M" = (Except.ok s, c) := ⟨_, _, rfl⟩
  exact ⟨s1, c1, s2, c2, e1, e2,
    (c4_md5_comment_invariant 4 (fun s => s) ctxC4 c1 c2 "int32 x"
      "# c\nint32 x\n\n" "p/M" s1 s2 (by decide) e1 e2).1⟩

end Rosgo
